import Mathlib

/- Shallow embedding of the az-hibernate-agent swap provisioning tool.

   Pure functions of the source (swap_needed_size, get_swap_file_offset,
   find_swap_file, is_kernel_cmdline_correct, the GRUB managed-block rewrite)
   are translated directly; the orchestration in main/update_swap_offset is
   embedded as functions over an explicit environment record whose boolean
   fields stand for the outcomes of the individual system calls, and which
   produce a trace of the externally visible actions. -/

-- String and numeric constants from the source.

def U32_MOD : Nat := 4294967296

def MEGA_BYTES : Nat := 2 ^ 20

def GIGA_BYTES : Nat := 2 ^ 30

def swap_file_name_str : String := "/hibfile.sys"

def file_ty_str : String := "file"

def az_start_line : String := "# az-hibernate-agent:start"

def az_end_line : String := "# az-hibernate-agent:end"

def dev_uuid_dir : String := "/dev/disk/by-uuid/"

def resume_key : String := "resume="

def resume_offset_key : String := "resume_offset="

def no_console_suspend_key : String := "no_console_suspend="

def one_str : String := "1"

def space_str : String := " "

def grub_line_head : String := "GRUB_CMDLINE_LINUX_DEFAULT=\"$GRUB_CMDLINE_LINUX_DEFAULT "

def quote_str : String := "\""

/-- Embedding of swap_needed_size.  The C function returns size_t and calls
    log_fatal (process abort) on the last branch; the abort is modelled as
    none.  All arithmetic is exact: the reachable branches cannot overflow
    size_t since phys_mem is at most 256 GiB there. -/
def swap_needed_size (phys_mem : Nat) : Option Nat :=
  if phys_mem ≤ 2 * GIGA_BYTES then some (3 * phys_mem)
  else if phys_mem ≤ 8 * GIGA_BYTES then some (2 * phys_mem)
  else if phys_mem ≤ 64 * GIGA_BYTES then some (3 * phys_mem / 2)
  else if phys_mem ≤ 256 * GIGA_BYTES then some (5 * phys_mem / 4)
  else none

/-- The sizing tiers exactly as the claim words them, for comparison with
    the embedded code. -/
def swap_needed_size_claim (r : Nat) : Option Nat :=
  if r ≤ 2 * GIGA_BYTES then some (3 * r)
  else if r ≤ 8 * GIGA_BYTES then some (2 * r)
  else if r ≤ 64 * GIGA_BYTES then some (3 * r / 2)
  else if r ≤ 256 * GIGA_BYTES then some (5 * r / 4)
  else none

-- Block-offset resolver: get_swap_file_offset.

/-- Mutable locals of the loop in get_swap_file_offset (all uint32 in C). -/
structure GsfoState where
  last : Nat
  first : Nat
  num_contiguous_blocks : Nat
  first_blknum : Nat
  deriving DecidableEq

/-- One iteration of the loop body of get_swap_file_offset for logical block
    i whose FIBMAP result is blknum (already reduced mod 2^32).  The Bool is
    false when the loop hits the break statement.  Mirrors the C order:
    the i == 0 assignment to first_blknum happens before the break check,
    and the subtraction blknum - last is uint32 arithmetic. -/
def gsfo_step (i blknum : Nat) (s : GsfoState) : GsfoState × Bool :=
  let s1 := if i = 0 then { s with first_blknum := blknum } else s
  if s1.last ≠ 0 ∧ (blknum + U32_MOD - s1.last) % U32_MOD ≠ 1 then (s1, false)
  else
    let s2 := if s1.first = 0 then { s1 with first := blknum } else s1
    ({ s2 with last := blknum, num_contiguous_blocks := s2.num_contiguous_blocks + 1 }, true)

/-- The loop of get_swap_file_offset, running from index i with fuel
    remaining iterations; bm is the FIBMAP oracle (logical block number to
    the uint32 the ioctl stores). -/
def gsfo_loop (bm : Nat → Nat) : Nat → Nat → GsfoState → GsfoState
  | 0, _, s => s
  | fuel + 1, i, s =>
    match gsfo_step i (bm i % U32_MOD) s with
    | (s1, false) => s1
    | (s1, true) => gsfo_loop bm fuel (i + 1) s1

/-- Embedding of get_swap_file_offset.  blksize is the FIGETBSZ result and
    page_size the sysconf page size; ~0 is 2^32 - 1 at uint32 width. -/
def get_swap_file_offset (bm : Nat → Nat) (blksize page_size : Nat) : Nat :=
  let blocks_per_page := page_size / blksize
  let s0 : GsfoState :=
    { last := 0, first := 0, num_contiguous_blocks := 0, first_blknum := U32_MOD - 1 }
  let s := gsfo_loop bm blocks_per_page 0 s0
  if page_size ≤ s.num_contiguous_blocks * blksize then s.first_blknum else U32_MOD - 1

/-- Length of the run of blocks starting at logical block i each of which is
    the successor (as a uint32 value) of its predecessor. -/
def contiguous_run (bm : Nat → Nat) : Nat → Nat → Nat
  | 0, _ => 0
  | fuel + 1, i =>
    if bm i % U32_MOD = bm (i - 1) % U32_MOD + 1 then contiguous_run bm fuel (i + 1) + 1
    else 0

def gsfo_test_bm : Nat → Nat := fun i => i + 5

def c10w_bm : Nat → Nat := fun i => i + 42

/-- The FIBMAP results of the counterexample mapping: physical blocks
    0, 0, 7, 8 for logical blocks 0, 1, 2, 3. -/
def c1_cex_bm : Nat → Nat := fun i => if i = 2 then 7 else if i = 3 then 8 else 0

-- Swap table entries (/proc/swaps, parsed) and the locator find_swap_file.

/-- One parsed data line of /proc/swaps: path, type column, size column. -/
structure SwapEntry where
  filename : String
  ty : String
  size : Nat
  deriving DecidableEq

/-- struct swap_file of the source. -/
structure SwapFileRec where
  path : String
  capacity : Nat
  deriving DecidableEq

/-- Result of stat on the well-known path: whether S_ISREG holds and
    st_size.  A failed stat is modelled by Option none at the use site. -/
structure HibStat where
  is_regular : Bool
  st_size : Nat
  deriving DecidableEq

/-- The qualifying test the find_swap_file loop intends on a parsed entry:
    type column "file" and size column not below the needed size.  The
    shipped code performs the type comparison before the field is
    NUL-terminated (see swaps_scan below), so this test is what the loop
    was written to do, not what it does. -/
def swap_entry_matches (needed_size : Nat) (en : SwapEntry) : Bool :=
  en.ty == file_ty_str && decide (needed_size ≤ en.size)

/-- The locator interface the orchestrator in main consumes, over parsed
    table entries: first qualifying /proc/swaps entry, else the well-known
    path if stat succeeds on a regular file (regardless of its size), else
    none.  Because the shipped code's type comparison never matches (see
    find_swap_file below), the program only ever realizes the fallback
    cases of this function (entries yielding no match); main's orchestration
    is verified against this more general interface, which contains the
    program's real runs. -/
def find_swap_file_intent (entries : List SwapEntry) (hibstat : Option HibStat)
    (needed_size : Nat) : Option SwapFileRec :=
  match entries.find? (swap_entry_matches needed_size) with
  | some en => some { path := en.filename, capacity := en.size }
  | none =>
    match hibstat with
    | none => none
    | some st =>
      if st.is_regular then some { path := swap_file_name_str, capacity := st.st_size }
      else none

-- Byte-level model of the find_swap_file scan over raw /proc/swaps lines.

/-- isspace of the C locale. -/
def c_isspace (c : Char) : Bool :=
  c == ' ' || c == '\t' || c == '\n' || c == '\r' || c == '\x0b' || c == '\x0c'

/-- Embedding of next_field called on a field start inside the fgets
    buffer: the line is the buffer content up to its terminating NUL.  The
    result is the rest of the line after the current field and the
    following whitespace run.  none models both a NULL return (the field
    start already is the terminating NUL) and the case where no whitespace
    remains before the terminating NUL, in which the C scan runs past the
    buffer (undefined). -/
def next_field_model (l : List Char) : Option (List Char) :=
  if l = [] then none
  else
    match l.dropWhile (fun c => !(c_isspace c)) with
    | [] => none
    | rest => some (rest.dropWhile c_isspace)

/-- The properly NUL-terminated field starting at a position, i.e. what a
    later next_field call would leave there. -/
def field_at (l : List Char) : List Char :=
  l.takeWhile (fun c => !(c_isspace c))

/-- Embedding of the /proc/swaps reading loop of find_swap_file at the byte
    level.  After `type = next_field(filename)` only the filename is
    NUL-terminated, so the string strcmp reads at `type` extends to the end
    of the line: the comparison with "file" succeeds only when the line
    ends immediately after the type column, and in that case the subsequent
    next_field(type) scan finds no whitespace before the buffer's NUL and
    overruns it (Except.error, undefined).  On any line whose type column
    is followed by more text (every well-formed /proc/swaps data line), the
    comparison fails and the entry is skipped. -/
def swaps_scan : List (List Char) → Except Unit (Option SwapFileRec)
  | [] => Except.ok none
  | line :: rest =>
    match next_field_model line with
    | none => Except.error ()
    | some type_sfx =>
      if type_sfx = file_ty_str.data then Except.error ()
      else swaps_scan rest

/-- Embedding of find_swap_file over the raw table lines: the scan never
    produces an entry (its only non-error outcome is none), after which the
    code falls back to stat on the well-known path.  The needed size is
    only consumed inside the unreachable branch. -/
def find_swap_file (lines : List (List Char)) (hibstat : Option HibStat)
    (_needed_size : Nat) : Except Unit (Option SwapFileRec) :=
  match swaps_scan lines with
  | Except.error _ => Except.error ()
  | Except.ok (some out) => Except.ok (some out)
  | Except.ok none =>
    Except.ok
      (match hibstat with
       | none => none
       | some st =>
         if st.is_regular then some { path := swap_file_name_str, capacity := st.st_size }
         else none)

/-- A well-formed /proc/swaps data line for an active 8 GiB file-type swap
    entry, as fgets stores it. -/
def c6bug_line : List Char := ("/hibfile.sys file 8388604 0 -2\n").data

-- Kernel command line checking: is_kernel_cmdline_correct.

/-- The value of the last whitespace-separated field of the command line
    that starts with the given key (strncmp on the key's characters), with
    the key removed; the C loop overwrites its pointer on every match, so
    the last match wins. -/
def last_field_value (fields : List String) (key : String) : Option String :=
  (fields.filter (fun f => key.data.isPrefixOf f.data)).getLast?.map
    (fun f => String.mk (f.data.drop key.data.length))

/-- Embedding of is_kernel_cmdline_correct.  The argument is the list of
    whitespace-separated fields of the first line of /proc/cmdline (none if
    the file could not be read, which the C treats as incorrect).  All three
    parameters must be present and equal to the expected strings. -/
def is_kernel_cmdline_correct (fields_opt : Option (List String)) (dev_uuid : String)
    (resume_offset : Nat) : Bool :=
  match fields_opt with
  | none => false
  | some fields =>
    match last_field_value fields resume_key, last_field_value fields resume_offset_key,
        last_field_value fields no_console_suspend_key with
    | some rf, some rof, some nf =>
      rf == dev_uuid_dir ++ dev_uuid && rof == toString resume_offset && nf == one_str
    | _, _, _ => false

/-- The independent statement of what "all three parameters match" means,
    written from the spec for comparison with the code's boolean. -/
def params_match (fields : List String) (dev_uuid : String) (resume_offset : Nat) : Prop :=
  last_field_value fields resume_key = some (dev_uuid_dir ++ dev_uuid) ∧
  last_field_value fields resume_offset_key = some (toString resume_offset) ∧
  last_field_value fields no_console_suspend_key = some one_str

-- ResumeSwapArea and get_swap_area.

/-- struct resume_swap_area passed to the SNAPSHOT_SET_SWAP_AREA ioctl. -/
structure ResumeSwapArea where
  offset : Nat
  dev : Nat
  deriving DecidableEq

/-- Embedding of get_swap_area: log_fatal (modelled none) when the file is
    not regular or the resolver returns the sentinel; otherwise the offset
    and device pair. -/
def get_swap_area (is_regular : Bool) (dev : Nat) (bm : Nat → Nat)
    (blksize page_size : Nat) : Option ResumeSwapArea :=
  if is_regular = false then none
  else if get_swap_file_offset bm blksize page_size = U32_MOD - 1 then none
  else some { offset := get_swap_file_offset bm blksize page_size, dev := dev }

-- The GRUB default-settings rewrite performed by
-- update_kernel_cmdline_params_for_grub, modelled at the byte level: the
-- file content is the raw character sequence; reading splits it into fgets
-- chunks (each ending at the newline that stopped fgets, except a possible
-- final chunk without one), kept chunks are written back byte for byte,
-- and the managed block is appended by fprintf with no extra separator.

/-- Substring test (strstr of the C code): some tail of hay starts with
    pat. -/
def hasSubstrL (hay pat : List Char) : Bool :=
  hay.tails.any (fun t => pat.isPrefixOf t)

/-- Helper of split_lines; the first argument holds the reversed current
    chunk. -/
def split_lines_go : List Char → List Char → List (List Char)
  | cur, [] => if cur = [] then [] else [cur.reverse]
  | cur, c :: rest =>
    if c = '\n' then (cur.reverse ++ ['\n']) :: split_lines_go [] rest
    else split_lines_go (c :: cur) rest

/-- The fgets chunking of the file content: chunks end at each newline; a
    final chunk without a newline is possible.  (Chunks are assumed shorter
    than the 1024-byte read buffer.) -/
def split_lines (s : List Char) : List (List Char) :=
  split_lines_go [] s

/-- A proper text line: a newline-free body followed by the newline. -/
def is_nl_line (ch : List Char) : Prop :=
  ∃ b, ch = b ++ ['\n'] ∧ '\n' ∉ b

/-- The read loop of update_kernel_cmdline_params_for_grub over fgets
    chunks: chunks are kept, except that any chunk containing the start
    sentinel switches to skipping until (and including) a chunk containing
    the end sentinel. -/
def strip_managed_block : Bool → List (List Char) → List (List Char)
  | _, [] => []
  | true, l :: rest =>
    if hasSubstrL l az_end_line.data then strip_managed_block false rest
    else strip_managed_block true rest
  | false, l :: rest =>
    if hasSubstrL l az_start_line.data then strip_managed_block true rest
    else l :: strip_managed_block false rest

/-- The args string built by asprintf in
    update_kernel_cmdline_params_for_grub. -/
def mk_resume_args (dev_uuid : String) (offset : Nat) : String :=
  resume_key ++ dev_uuid_dir ++ dev_uuid ++ space_str ++ resume_offset_key ++
    toString offset ++ space_str ++ no_console_suspend_key ++ one_str

/-- The GRUB_CMDLINE_LINUX_DEFAULT line written inside the managed block. -/
def grub_cmdline_line (args : String) : String :=
  grub_line_head ++ args ++ quote_str

/-- The three newline-terminated lines the fprintf calls append. -/
def grub_block (args : String) : List (List Char) :=
  [az_start_line.data ++ ['\n'], (grub_cmdline_line args).data ++ ['\n'],
   az_end_line.data ++ ['\n']]

/-- The whole rewrite of the GRUB default-settings file at the byte level:
    the kept chunks are concatenated byte for byte and the fresh managed
    block follows them directly, with no separator in between. -/
def grub_rewrite (args : String) (content : List Char) : List Char :=
  (strip_managed_block false (split_lines content) ++ grub_block args).flatten

-- Block commitment cascade: try_zeroing_out_with_fallocate and
-- create_swap_file.

/-- Outcome of the fallocate system call. -/
inductive FallocRes where
  | success
  | enospc
  | other_err
  deriving DecidableEq

/-- Which commitment path produced the file. -/
inductive AllocOutcome where
  | fast_path
  | slow_path
  deriving DecidableEq

/-- The distinct log_fatal aborts of the allocation cascade. -/
inductive AllocFatal where
  | fatal_create
  | fatal_enospc
  | fatal_falloc_other
  | fatal_slow
  deriving DecidableEq

/-- Environment of the allocation cascade: filesystem type and the outcomes
    of the individual system calls. -/
structure AllocEnv where
  on_xfs : Bool
  create_ok : Bool
  falloc_open_ok : Bool
  falloc_res : FallocRes
  slow_ok : Bool
  deriving DecidableEq

/-- Embedding of try_zeroing_out_with_fallocate: open failure returns false
    (non-fatal); a failing fallocate is log_fatal, with ENOSPC reported
    distinctly; success returns true. -/
def try_zeroing_out_with_fallocate (open_ok : Bool) (res : FallocRes) :
    Except AllocFatal Bool :=
  if open_ok = false then Except.ok false
  else
    match res with
    | FallocRes.success => Except.ok true
    | FallocRes.enospc => Except.error AllocFatal.fatal_enospc
    | FallocRes.other_err => Except.error AllocFatal.fatal_falloc_other

/-- Embedding of the commitment cascade in create_swap_file: the slow
    pattern-write path runs when the file is on XFS (short-circuit: the
    fast path is then never attempted) or when the fast path could not be
    performed; a failing slow path is fatal. -/
def create_swap_file (a : AllocEnv) : Except AllocFatal AllocOutcome :=
  if a.create_ok = false then Except.error AllocFatal.fatal_create
  else
    if a.on_xfs then
      if a.slow_ok then Except.ok AllocOutcome.slow_path
      else Except.error AllocFatal.fatal_slow
    else
      match try_zeroing_out_with_fallocate a.falloc_open_ok a.falloc_res with
      | Except.error er => Except.error er
      | Except.ok true => Except.ok AllocOutcome.fast_path
      | Except.ok false =>
        if a.slow_ok then Except.ok AllocOutcome.slow_path
        else Except.error AllocFatal.fatal_slow

-- update_swap_offset and its interaction with the bootloader tools.

/-- Externally visible actions of update_swap_offset and the GRUB patcher:
    registering the swap area with /dev/snapshot, and the individual
    configuration writes / tool invocations. -/
inductive UAct where
  | set_area
  | write_initramfs
  | run_grubby
  | write_grub_default
  | run_update_grub2
  | run_mkconfig
  deriving DecidableEq

/-- Environment of update_swap_offset: outcomes of the system calls it
    performs, the inputs of get_swap_area, the UUID lookup result, the
    parsed kernel command line, and which bootloader tools exist. -/
structure UpdEnv where
  snapshot_open_ok : Bool
  ioctl_ok : Bool
  is_regular : Bool
  dev : Nat
  bm : Nat → Nat
  blksize : Nat
  page_size : Nat
  uuid : Option String
  cmdline_fields : Option (List String)
  has_update_initramfs : Bool
  has_grubby : Bool
  has_update_grub2 : Bool
  has_grub2_mkconfig : Bool
  grub_cfg_found : Bool

/-- Embedding of the control flow of update_kernel_cmdline_params_for_grub:
    returns the C ret_value and the trace of configuration writes and tool
    invocations.  (The caller only invokes it when at least one of the
    three tools exists.) -/
def update_kernel_cmdline_params_for_grub (e : UpdEnv) : Bool × List UAct :=
  let tr0 := if e.has_update_initramfs then [UAct.write_initramfs] else []
  if e.has_grubby then (true, tr0 ++ [UAct.run_grubby])
  else if e.has_update_grub2 || e.has_grub2_mkconfig then
    let tr1 := tr0 ++ [UAct.write_grub_default]
    if e.has_update_grub2 then (true, tr1 ++ [UAct.run_update_grub2])
    else if e.grub_cfg_found then (true, tr1 ++ [UAct.run_mkconfig])
    else (false, tr1)
  else (true, tr0)

/-- Embedding of update_swap_offset.  Except.error models log_fatal (the
    payload is the trace accumulated before the abort); Except.ok carries
    the returned boolean and the trace.  UAct.set_area is recorded when the
    SNAPSHOT_SET_SWAP_AREA ioctl succeeds. -/
def update_swap_offset (e : UpdEnv) : Except (List UAct) (Bool × List UAct) :=
  if e.snapshot_open_ok = false then Except.ok (false, [])
  else
    match get_swap_area e.is_regular e.dev e.bm e.blksize e.page_size with
    | none => Except.error []
    | some area =>
      if e.ioctl_ok = false then Except.ok (false, [])
      else
        match e.uuid with
        | none => Except.error [UAct.set_area]
        | some u =>
          if is_kernel_cmdline_correct e.cmdline_fields u area.offset then
            Except.ok (true, [UAct.set_area])
          else if e.has_grubby || e.has_update_grub2 || e.has_grub2_mkconfig then
            Except.ok ((update_kernel_cmdline_params_for_grub e).1,
              UAct.set_area :: (update_kernel_cmdline_params_for_grub e).2)
          else Except.ok (false, [UAct.set_area])

-- The orchestration in main.

/-- Externally visible actions of main's swap-file state transition. -/
inductive MAct where
  | swapoff_act (path : String)
  | unlink_act (path : String)
  | create_act (size : Nat)
  | swapon_act (path : String)
  | finished_act
  deriving DecidableEq

/-- Result of a main run: the process exit code, the action trace, and the
    swap file handed to activation (none when the run aborted earlier). -/
structure MainResult where
  exit_code : Nat
  trace : List MAct
  final_swap : Option SwapFileRec
  deriving DecidableEq

/-- Environment of a main run. -/
structure MainEnv where
  hib_enabled : Bool
  total_ram : Nat
  entries : List SwapEntry
  hibstat : Option HibStat
  swapoff_ok : Bool
  unlink_ok : Bool
  alloc : AllocEnv
  enable_ok : Bool
  upd : UpdEnv

/-- The tail of main from ensure_swap_is_enabled on: activation (swapon),
    then update_swap_offset, whose false return is log_fatal in main. -/
def proceed_with (e : MainEnv) (swap : SwapFileRec) (_created : Bool)
    (tr : List MAct) : MainResult :=
  if e.enable_ok = false then { exit_code := 1, trace := tr, final_swap := some swap }
  else
    match update_swap_offset e.upd with
    | Except.error _ =>
      { exit_code := 1, trace := tr ++ [MAct.swapon_act swap.path], final_swap := some swap }
    | Except.ok p =>
      if p.1 = false then
        { exit_code := 1, trace := tr ++ [MAct.swapon_act swap.path], final_swap := some swap }
      else
        { exit_code := 0,
          trace := tr ++ [MAct.swapon_act swap.path] ++ [MAct.finished_act],
          final_swap := some swap }

/-- The create-swap-file step of main followed by the common tail; a failed
    creation is log_fatal.  The created file's struct swap_file capacity is
    the needed size. -/
def after_create (e : MainEnv) (needed : Nat) (tr : List MAct) : MainResult :=
  match create_swap_file e.alloc with
  | Except.error _ => { exit_code := 1, trace := tr, final_swap := none }
  | Except.ok _ =>
    proceed_with e { path := swap_file_name_str, capacity := needed } true
      (tr ++ [MAct.create_act needed])

/-- Embedding of main: hibernation check, sizing, locator, the
    undersized-file delete-then-recreate transition, creation when nothing
    was found, activation and reconciliation. -/
def main_model (e : MainEnv) : MainResult :=
  if e.hib_enabled = false then { exit_code := 0, trace := [], final_swap := none }
  else if e.total_ram = 0 then { exit_code := 1, trace := [], final_swap := none }
  else
    match swap_needed_size e.total_ram with
    | none => { exit_code := 1, trace := [], final_swap := none }
    | some needed =>
      match find_swap_file_intent e.entries e.hibstat needed with
      | some swap =>
        if swap.capacity < needed then
          if e.swapoff_ok = false then
            { exit_code := 1, trace := [MAct.swapoff_act swap.path], final_swap := none }
          else if e.unlink_ok = false then
            { exit_code := 1,
              trace := [MAct.swapoff_act swap.path, MAct.unlink_act swap.path],
              final_swap := none }
          else
            after_create e needed
              [MAct.swapoff_act swap.path, MAct.unlink_act swap.path]
        else proceed_with e swap false []
      | none => after_create e needed []

-- Concrete inputs used by the witness theorems.

def c5w_uuid : String := "b5fb-41a2"

/-- A prior file whose last line has no trailing newline. -/
def c5cex_content : List Char := ("GRUB_TIMEOUT=5").data

/-- A prior file whose content ends with a newline. -/
def c5w_nl_content : List Char := ("GRUB_TIMEOUT=5\nGRUB_DEFAULT=0\n").data

def c4w_uuid : String := "u-1"

def c4w_fields : List String :=
  ["root=/dev/sda1", "resume=/dev/disk/by-uuid/u-1", "resume_offset=100",
   "no_console_suspend=1"]

/-- An update environment whose kernel command line already matches. -/
def c4w_env : UpdEnv :=
  { snapshot_open_ok := true, ioctl_ok := true, is_regular := true, dev := 3,
    bm := fun i => i + 100, blksize := 1024, page_size := 4096,
    uuid := some c4w_uuid, cmdline_fields := some c4w_fields,
    has_update_initramfs := false, has_grubby := true, has_update_grub2 := false,
    has_grub2_mkconfig := false, grub_cfg_found := false }

/-- An update environment whose mapping breaks after one 1024-byte block. -/
def c7w_env : UpdEnv :=
  { snapshot_open_ok := true, ioctl_ok := true, is_regular := true, dev := 3,
    bm := fun i => if i = 0 then 5 else 9, blksize := 1024, page_size := 4096,
    uuid := some c4w_uuid, cmdline_fields := some c4w_fields,
    has_update_initramfs := false, has_grubby := true, has_update_grub2 := false,
    has_grub2_mkconfig := false, grub_cfg_found := false }

/-- A main environment: 2 GiB of RAM (6 GiB needed), an undersized 1 GiB
    file at the well-known path, every system call succeeding. -/
def c3w_env : MainEnv :=
  { hib_enabled := true, total_ram := 2 * GIGA_BYTES, entries := [],
    hibstat := some { is_regular := true, st_size := GIGA_BYTES },
    swapoff_ok := true, unlink_ok := true,
    alloc := { on_xfs := false, create_ok := true, falloc_open_ok := true,
               falloc_res := FallocRes.success, slow_ok := true },
    enable_ok := true, upd := c4w_env }

/-- A main environment on a VM without hibernation support. -/
def c9w_env : MainEnv :=
  { hib_enabled := false, total_ram := 2 * GIGA_BYTES, entries := [],
    hibstat := none, swapoff_ok := true, unlink_ok := true,
    alloc := { on_xfs := false, create_ok := true, falloc_open_ok := true,
               falloc_res := FallocRes.success, slow_ok := true },
    enable_ok := true, upd := c4w_env }

-- Helper lemmas about the loop of get_swap_file_offset.

lemma gsfo_step_fb_of_ne (i b : Nat) (s : GsfoState) (hi : i ≠ 0) :
    ((gsfo_step i b s).1).first_blknum = s.first_blknum := by
  unfold gsfo_step
  simp only [if_neg hi]
  split
  · rfl
  · split <;> rfl

lemma gsfo_step_zero (b : Nat) (s : GsfoState) (h : s.last = 0) (hf : s.first = 0) :
    gsfo_step 0 b s =
      ({ last := b, first := b, num_contiguous_blocks := s.num_contiguous_blocks + 1,
         first_blknum := b }, true) := by
  unfold gsfo_step
  simp [h, hf]

lemma gsfo_step_no_break (i b : Nat) (s : GsfoState) (hi : i ≠ 0)
    (h : s.last = 0 ∨ (b + U32_MOD - s.last) % U32_MOD = 1) :
    gsfo_step i b s =
      ({ last := b, first := if s.first = 0 then b else s.first,
         num_contiguous_blocks := s.num_contiguous_blocks + 1,
         first_blknum := s.first_blknum }, true) := by
  unfold gsfo_step
  simp only [if_neg hi]
  rw [if_neg (by rcases h with h | h <;> simp [h])]
  split
  · next hf => simp [hf]
  · next hf => rfl

lemma gsfo_step_break (i b : Nat) (s : GsfoState) (hi : i ≠ 0)
    (h1 : s.last ≠ 0) (h2 : (b + U32_MOD - s.last) % U32_MOD ≠ 1) :
    gsfo_step i b s = (s, false) := by
  unfold gsfo_step
  simp [if_neg hi, h1, h2]

lemma gsfo_loop_fb (bm : Nat → Nat) :
    ∀ fuel i s, 1 ≤ i → (gsfo_loop bm fuel i s).first_blknum = s.first_blknum := by
  intro fuel
  induction fuel with
  | zero => intro i s _; rfl
  | succ f ih =>
    intro i s hi
    have hfb := gsfo_step_fb_of_ne i (bm i % U32_MOD) s (by omega)
    unfold gsfo_loop
    cases hst : gsfo_step i (bm i % U32_MOD) s with
    | mk s1 cont =>
      rw [hst] at hfb
      cases cont
      · simpa using hfb
      · simp only []
        rw [ih (i + 1) s1 (by omega)]
        simpa using hfb

lemma u32_diff_one (a b : Nat) (ha : a < U32_MOD) (hb : b < U32_MOD) (hb0 : b ≠ 0) :
    ((b + U32_MOD - a) % U32_MOD = 1) ↔ b = a + 1 := by
  unfold U32_MOD at *
  omega

lemma u32_mod_lt (n : Nat) : n % U32_MOD < U32_MOD := by
  unfold U32_MOD
  omega

lemma gsfo_loop_num_of_contig (bm : Nat → Nat) :
    ∀ fuel i s, 1 ≤ i →
      (∀ j, i ≤ j → j < i + fuel → bm j % U32_MOD = bm (j - 1) % U32_MOD + 1) →
      s.last = bm (i - 1) % U32_MOD →
      (gsfo_loop bm fuel i s).num_contiguous_blocks = s.num_contiguous_blocks + fuel := by
  intro fuel
  induction fuel with
  | zero => intro i s _ _ _; rfl
  | succ f ih =>
    intro i s hi hc hl
    have hbi : bm i % U32_MOD = bm (i - 1) % U32_MOD + 1 := hc i le_rfl (by omega)
    have hstep := gsfo_step_no_break i (bm i % U32_MOD) s (by omega)
      (by
        by_cases h0 : s.last = 0
        · exact Or.inl h0
        · right
          rw [hbi, hl]
          have hlt := u32_mod_lt (bm (i - 1))
          unfold U32_MOD at *
          omega)
    unfold gsfo_loop
    rw [hstep]
    simp only []
    rw [ih (i + 1) _ (by omega)
      (fun j hj1 hj2 => hc j (by omega) (by omega))
      (by simp)]
    simp
    omega

lemma gsfo_loop_num_of_nonzero (bm : Nat → Nat) :
    ∀ fuel i s, 1 ≤ i →
      (∀ j, j < i + fuel → bm j % U32_MOD ≠ 0) →
      s.last = bm (i - 1) % U32_MOD →
      (gsfo_loop bm fuel i s).num_contiguous_blocks =
        s.num_contiguous_blocks + contiguous_run bm fuel i := by
  intro fuel
  induction fuel with
  | zero => intro i s _ _ _; rfl
  | succ f ih =>
    intro i s hi hnz hl
    have hlast_ne : s.last ≠ 0 := by
      rw [hl]; exact hnz (i - 1) (by omega)
    have hb_ne : bm i % U32_MOD ≠ 0 := hnz i (by omega)
    by_cases hcont : bm i % U32_MOD = bm (i - 1) % U32_MOD + 1
    · have hstep := gsfo_step_no_break i (bm i % U32_MOD) s (by omega)
        (by
          right
          rw [hcont, hl]
          have hlt := u32_mod_lt (bm (i - 1))
          unfold U32_MOD at *
          omega)
      unfold gsfo_loop contiguous_run
      rw [hstep, if_pos hcont]
      simp only []
      rw [ih (i + 1) _ (by omega) (fun j hj => hnz j (by omega)) (by simp)]
      simp
      omega
    · have hdiff : (bm i % U32_MOD + U32_MOD - s.last) % U32_MOD ≠ 1 := by
        rw [hl]
        intro hone
        exact hcont ((u32_diff_one _ _ (u32_mod_lt _) (u32_mod_lt _) hb_ne).mp hone)
      have hstep := gsfo_step_break i (bm i % U32_MOD) s (by omega) hlast_ne hdiff
      unfold gsfo_loop contiguous_run
      rw [hstep, if_neg hcont]
      simp

lemma contiguous_run_le_of_break (bm : Nat → Nat) :
    ∀ fuel i j, i ≤ j → j < i + fuel →
      bm j % U32_MOD ≠ bm (j - 1) % U32_MOD + 1 →
      contiguous_run bm fuel i ≤ j - i := by
  intro fuel
  induction fuel with
  | zero => intro i j _ h2 _; omega
  | succ f ih =>
    intro i j h1 h2 hbrk
    unfold contiguous_run
    by_cases hif : bm i % U32_MOD = bm (i - 1) % U32_MOD + 1
    · rw [if_pos hif]
      rcases Nat.eq_or_lt_of_le h1 with rfl | hlt
      · exact absurd hif hbrk
      · have := ih (i + 1) j (by omega) (by omega) hbrk
        omega
    · rw [if_neg hif]
      omega

lemma gsfo_unroll (bm : Nat → Nat) (f : Nat) :
    gsfo_loop bm (f + 1) 0
      { last := 0, first := 0, num_contiguous_blocks := 0, first_blknum := U32_MOD - 1 } =
    gsfo_loop bm f 1
      { last := bm 0 % U32_MOD, first := bm 0 % U32_MOD, num_contiguous_blocks := 1,
        first_blknum := bm 0 % U32_MOD } := rfl

/-- C1 (amended): over the uint32 values the block-mapping ioctl reports,
    and provided the filesystem block size divides the page size, (i) a
    mapping contiguous from logical block 0 through the whole first page
    makes the resolver return the first physical block of the run, and
    (ii) a mapping with a contiguity break before one page is covered makes
    it return the all-bits-set sentinel provided every reported physical
    block number of the first page is nonzero (a zero block number, which
    the ioctl uses for holes, disables the contiguity check of the next
    iteration). -/
theorem c1_amended (bm : Nat → Nat) (blksize page_size : Nat)
    (hbs : 0 < blksize) (hpg : 0 < page_size) (hdvd : blksize ∣ page_size) :
    ((∀ i, i + 1 < page_size / blksize →
        bm (i + 1) % U32_MOD = bm i % U32_MOD + 1) →
      get_swap_file_offset bm blksize page_size = bm 0 % U32_MOD) ∧
    ((∀ j, j < page_size / blksize → bm j % U32_MOD ≠ 0) →
      (∃ k, k + 1 < page_size / blksize ∧ bm (k + 1) % U32_MOD ≠ bm k % U32_MOD + 1) →
      get_swap_file_offset bm blksize page_size = U32_MOD - 1) := by
  have hble : blksize ≤ page_size := Nat.le_of_dvd hpg hdvd
  have hbpp1 : 1 ≤ page_size / blksize := (Nat.one_le_div_iff hbs).mpr hble
  obtain ⟨f, hf⟩ : ∃ f, page_size / blksize = f + 1 := ⟨page_size / blksize - 1, by omega⟩
  have hmul : page_size / blksize * blksize = page_size := Nat.div_mul_cancel hdvd
  rw [hf] at hmul
  constructor
  · intro hc
    simp only [get_swap_file_offset]
    rw [hf, gsfo_unroll]
    have hnum := gsfo_loop_num_of_contig bm f 1
      { last := bm 0 % U32_MOD, first := bm 0 % U32_MOD, num_contiguous_blocks := 1,
        first_blknum := bm 0 % U32_MOD } le_rfl
      (fun j hj1 hj2 => by
        have hcj := hc (j - 1) (by omega)
        have hj : j - 1 + 1 = j := by omega
        rw [hj] at hcj
        exact hcj)
      (by norm_num)
    have hfb := gsfo_loop_fb bm f 1
      { last := bm 0 % U32_MOD, first := bm 0 % U32_MOD, num_contiguous_blocks := 1,
        first_blknum := bm 0 % U32_MOD } le_rfl
    rw [if_pos]
    · exact hfb
    · rw [hnum]
      have h1f : 1 + f = f + 1 := by omega
      rw [h1f, hmul]
  · rintro hnz ⟨k, hk1, hk2⟩
    simp only [get_swap_file_offset]
    rw [hf, gsfo_unroll]
    have hnum := gsfo_loop_num_of_nonzero bm f 1
      { last := bm 0 % U32_MOD, first := bm 0 % U32_MOD, num_contiguous_blocks := 1,
        first_blknum := bm 0 % U32_MOD } le_rfl
      (fun j hj => hnz j (by omega))
      (by norm_num)
    have hrun := contiguous_run_le_of_break bm f 1 (k + 1) (by omega) (by omega)
      (by
        have hk : k + 1 - 1 = k := by omega
        rw [hk]
        exact hk2)
    have hnotle : ¬ page_size ≤
        (gsfo_loop bm f 1
          { last := bm 0 % U32_MOD, first := bm 0 % U32_MOD, num_contiguous_blocks := 1,
            first_blknum := bm 0 % U32_MOD }).num_contiguous_blocks * blksize := by
      rw [hnum]
      show ¬ page_size ≤ (1 + contiguous_run bm f 1) * blksize
      have h1 : 1 + contiguous_run bm f 1 ≤ f := by omega
      have h2 := mul_le_mul_right' h1 blksize
      have h3 : f * blksize < (f + 1) * blksize :=
        mul_lt_mul_of_pos_right (Nat.lt_succ_self f) hbs
      exact Nat.not_le.mpr (lt_of_le_of_lt h2 (lt_of_lt_of_le h3 (le_of_eq hmul)))
    rw [if_neg hnotle]

/-- C1 counterexample: the mapping 0, 0, 7, 8 (block size 1024, page size
    4096) has a contiguity break at the very first step (block 1 is not
    block 0 plus one), and no contiguous run covers a page, yet the resolver
    returns 0 (the block number reported for logical block 0) instead of the
    all-bits-set sentinel, because a reported block number of 0 makes the C
    code skip the contiguity check. -/
theorem c1_counterexample :
    0 + 1 < 4096 / 1024 ∧
    c1_cex_bm (0 + 1) % U32_MOD ≠ c1_cex_bm 0 % U32_MOD + 1 ∧
    get_swap_file_offset c1_cex_bm 1024 4096 = 0 ∧
    (0 : Nat) ≠ U32_MOD - 1 := by decide

/-- C1 witness: a concrete contiguous mapping 5, 6, 7, 8 resolved to its
    first block. -/
theorem c1_amended_witness :
    get_swap_file_offset gsfo_test_bm 1024 4096 = gsfo_test_bm 0 % U32_MOD := by
  refine (c1_amended gsfo_test_bm 1024 4096 (by norm_num) (by norm_num) (by norm_num)).1 ?_
  intro i hi
  norm_num at hi
  unfold gsfo_test_bm U32_MOD
  omega

/-- C10: whenever the resolver returns anything other than the all-bits-set
    sentinel, the returned value is exactly the uint32 physical block number
    the FIBMAP ioctl reported for logical block 0 (the first query),
    independently of where the tracked contiguous run started. -/
theorem c10_first_block (bm : Nat → Nat) (blksize page_size : Nat)
    (h : get_swap_file_offset bm blksize page_size ≠ U32_MOD - 1) :
    get_swap_file_offset bm blksize page_size = bm 0 % U32_MOD := by
  simp only [get_swap_file_offset] at h ⊢
  cases hbpp : page_size / blksize with
  | zero =>
    rw [hbpp] at h
    simp only [gsfo_loop] at h
    split at h <;> simp at h
  | succ f =>
    rw [hbpp] at h
    rw [gsfo_unroll] at h ⊢
    have hfb := gsfo_loop_fb bm f 1
      { last := bm 0 % U32_MOD, first := bm 0 % U32_MOD, num_contiguous_blocks := 1,
        first_blknum := bm 0 % U32_MOD } le_rfl
    split at h
    · next hcond => rw [if_pos hcond]; exact hfb
    · exact absurd rfl h

/-- C10 witness: a contiguous mapping starting at block 42. -/
theorem c10_first_block_witness :
    get_swap_file_offset c10w_bm 512 4096 = c10w_bm 0 % U32_MOD :=
  c10_first_block c10w_bm 512 4096 (by decide)


/-- C2: for every physical-memory size the required swap capacity follows
    the tier table (3x up to 2 GiB, 2x up to 8 GiB, 3/2x up to 64 GiB, 5/4x
    up to 256 GiB, fatal above), and at the first tier boundary exactly
    2 GiB yields 6 GiB while 2 GiB plus one byte gets the tier-2 doubling. -/
theorem c2_tiering :
    (∀ r, swap_needed_size r = swap_needed_size_claim r) ∧
    swap_needed_size (2 * GIGA_BYTES) = some (6 * GIGA_BYTES) ∧
    swap_needed_size (2 * GIGA_BYTES + 1) = some (2 * (2 * GIGA_BYTES + 1)) ∧
    swap_needed_size (256 * GIGA_BYTES) = some (5 * (256 * GIGA_BYTES) / 4) ∧
    swap_needed_size (256 * GIGA_BYTES + 1) = none :=
  ⟨fun _ => rfl, by decide, by decide, by decide, by decide⟩

/-- C8: in the block-commitment cascade, an ENOSPC from the fast
    reserve-space call is fatal (no retry, no slow-path fallback); the slow
    pattern-write path is taken only on XFS or when the fast path could not
    be performed (the open failed); and a failing slow path makes the whole
    allocation fatal. -/
theorem c8_cascade (a : AllocEnv) :
    (a.create_ok = true → a.on_xfs = false → a.falloc_open_ok = true →
      a.falloc_res = FallocRes.enospc →
      create_swap_file a = Except.error AllocFatal.fatal_enospc) ∧
    (create_swap_file a = Except.ok AllocOutcome.slow_path →
      a.on_xfs = true ∨ a.falloc_open_ok = false) ∧
    ((a.on_xfs = true ∨ a.falloc_open_ok = false) → a.create_ok = true →
      a.slow_ok = false → create_swap_file a = Except.error AllocFatal.fatal_slow) := by
  obtain ⟨x1, x2, x3, x4, x5⟩ := a
  refine ⟨?_, ?_, ?_⟩
  · rintro rfl rfl rfl rfl
    rfl
  · intro h
    cases x1 <;> cases x2 <;> cases x3 <;> cases x4 <;> cases x5 <;>
      simp_all [create_swap_file, try_zeroing_out_with_fallocate]
  · rintro h rfl rfl
    rcases h with rfl | rfl
    · rfl
    · cases x1 <;> cases x4 <;>
        simp_all [create_swap_file, try_zeroing_out_with_fallocate]

/-- C8 witness: a non-XFS filesystem whose fallocate reports ENOSPC is
    fatal. -/
theorem c8_cascade_witness :
    create_swap_file
      { on_xfs := false, create_ok := true, falloc_open_ok := true,
        falloc_res := FallocRes.enospc, slow_ok := true } =
      Except.error AllocFatal.fatal_enospc :=
  (c8_cascade _).1 rfl rfl rfl rfl

-- Locator lemmas (byte level).

/-- C6 (code bug): the strcmp against "file" runs before next_field
    NUL-terminates the type field, so it compares the whole remaining line;
    on every well-formed /proc/swaps data line (newline-terminated) the
    comparison fails and the scan never returns a table entry — the claimed
    first-qualifying-entry behavior does not exist.  At the concrete
    failing line, the properly terminated type field is exactly "file" (the
    entry qualifies per the claim), the string the strcmp actually sees is
    not, and the locator ignores the 8 GiB entry, falling back to the
    undersized well-known-path file. -/
theorem c6_locator_dead_branch :
    (∀ lines : List (List Char),
      (∀ l ∈ lines, l ≠ [] ∧ l.getLast? = some '\n') →
      swaps_scan lines = Except.ok none) ∧
    field_at ((next_field_model c6bug_line).getD []) = file_ty_str.data ∧
    (next_field_model c6bug_line).getD [] ≠ file_ty_str.data ∧
    find_swap_file [c6bug_line] (some { is_regular := true, st_size := 64 }) 1000 =
      Except.ok (some { path := swap_file_name_str, capacity := 64 }) := by
  refine ⟨?_, by decide, by decide, by rfl⟩
  intro lines
  induction lines with
  | nil => intro _; rfl
  | cons l rest ih =>
    intro h
    obtain ⟨hne, hlast⟩ := h l (by simp)
    have hnlmem : '\n' ∈ l := List.mem_of_mem_getLast? hlast
    have hdw : l.dropWhile (fun c => !(c_isspace c)) ≠ [] := by
      rw [Ne, List.dropWhile_eq_nil_iff]
      intro hall
      have := hall '\n' hnlmem
      simp [c_isspace] at this
    cases hdw2 : l.dropWhile (fun c => !(c_isspace c)) with
    | nil => exact absurd hdw2 hdw
    | cons c cs =>
      have hnf : next_field_model l = some ((c :: cs).dropWhile c_isspace) := by
        unfold next_field_model
        rw [if_neg hne, hdw2]
      have hsfx : (c :: cs).dropWhile c_isspace <:+ l := by
        have h1 : (c :: cs).dropWhile c_isspace <:+ c :: cs := List.dropWhile_suffix _
        have h2 : c :: cs <:+ l := hdw2 ▸ List.dropWhile_suffix _
        exact h1.trans h2
      have hne_file : (c :: cs).dropWhile c_isspace ≠ file_ty_str.data := by
        cases hsf : (c :: cs).dropWhile c_isspace with
        | nil => simp [file_ty_str]
        | cons d ds =>
          intro heq
          obtain ⟨t, ht⟩ := hsfx
          rw [hsf] at ht
          have hl : l.getLast? = (d :: ds).getLast? := by
            rw [← ht]
            exact List.getLast?_append_of_ne_nil t (by simp)
          rw [heq, hlast] at hl
          simp [file_ty_str] at hl
      unfold swaps_scan
      rw [hnf]
      simp only [if_neg hne_file]
      exact ih (fun x hx => h x (by simp [hx]))

/-- C6 witness: the scan over the concrete well-formed table yields no
    entry. -/
theorem c6_locator_dead_branch_witness :
    swaps_scan [c6bug_line] = Except.ok none :=
  (c6_locator_dead_branch).1 [c6bug_line] (by decide)

-- Managed-block rewrite lemmas (byte level).

lemma hasSubstrL_start_nl :
    hasSubstrL (az_start_line.data ++ ['\n']) az_start_line.data = true := by decide

lemma hasSubstrL_end_nl :
    hasSubstrL (az_end_line.data ++ ['\n']) az_end_line.data = true := by decide

lemma strip_mem_no_start :
    ∀ (cs : List (List Char)) (b : Bool) (l : List Char),
      l ∈ strip_managed_block b cs → hasSubstrL l az_start_line.data = false := by
  intro cs
  induction cs with
  | nil =>
    intro b l h
    cases b <;> simp [strip_managed_block] at h
  | cons x xs ih =>
    intro b l h
    cases b with
    | false =>
      simp only [strip_managed_block] at h
      by_cases hx : hasSubstrL x az_start_line.data = true
      · rw [if_pos hx] at h
        exact ih true l h
      · rw [if_neg hx] at h
        rcases List.mem_cons.mp h with rfl | h2
        · simpa using hx
        · exact ih false l h2
    | true =>
      simp only [strip_managed_block] at h
      by_cases hx : hasSubstrL x az_end_line.data = true
      · rw [if_pos hx] at h
        exact ih false l h
      · rw [if_neg hx] at h
        exact ih true l h

lemma strip_append_no_start (r : List (List Char)) :
    ∀ (k : List (List Char)), (∀ l ∈ k, hasSubstrL l az_start_line.data = false) →
      strip_managed_block false (k ++ r) = k ++ strip_managed_block false r := by
  intro k
  induction k with
  | nil => intro _; rfl
  | cons x xs ih =>
    intro hk
    have hx : hasSubstrL x az_start_line.data = false := hk x (by simp)
    rw [List.cons_append]
    simp only [strip_managed_block]
    rw [if_neg (by simp [hx])]
    rw [ih (fun l hl => hk l (by simp [hl]))]
    rfl

lemma strip_sublist :
    ∀ (cs : List (List Char)) (b : Bool) (l : List Char),
      l ∈ strip_managed_block b cs → l ∈ cs := by
  intro cs
  induction cs with
  | nil =>
    intro b l h
    cases b <;> simp [strip_managed_block] at h
  | cons x xs ih =>
    intro b l h
    cases b with
    | false =>
      simp only [strip_managed_block] at h
      by_cases hx : hasSubstrL x az_start_line.data = true
      · rw [if_pos hx] at h
        exact List.mem_cons_of_mem x (ih true l h)
      · rw [if_neg hx] at h
        rcases List.mem_cons.mp h with rfl | h2
        · simp
        · exact List.mem_cons_of_mem x (ih false l h2)
    | true =>
      simp only [strip_managed_block] at h
      by_cases hx : hasSubstrL x az_end_line.data = true
      · rw [if_pos hx] at h
        exact List.mem_cons_of_mem x (ih false l h)
      · rw [if_neg hx] at h
        exact List.mem_cons_of_mem x (ih true l h)

lemma split_lines_go_append (t : List Char) :
    ∀ (b cur : List Char), '\n' ∉ b →
      split_lines_go cur (b ++ '\n' :: t) =
        (cur.reverse ++ (b ++ ['\n'])) :: split_lines_go [] t := by
  intro b
  induction b with
  | nil =>
    intro cur _
    simp [split_lines_go]
  | cons c b2 ih =>
    intro cur hb
    simp only [List.mem_cons, not_or] at hb
    simp only [List.cons_append, split_lines_go]
    rw [if_neg (fun h => hb.1 h.symm)]
    show split_lines_go (c :: cur) (b2 ++ '\n' :: t) =
      (cur.reverse ++ c :: (b2 ++ ['\n'])) :: split_lines_go [] t
    rw [ih (c :: cur) hb.2]
    simp

lemma split_lines_join :
    ∀ (chunks : List (List Char)), (∀ ch ∈ chunks, is_nl_line ch) →
      split_lines chunks.flatten = chunks := by
  intro chunks
  induction chunks with
  | nil => intro _; rfl
  | cons ch rest ih =>
    intro h
    obtain ⟨b, rfl, hb⟩ := h ch (by simp)
    unfold split_lines
    rw [List.flatten_cons]
    have hrw : (b ++ ['\n']) ++ rest.flatten = b ++ '\n' :: rest.flatten := by simp
    rw [hrw, split_lines_go_append rest.flatten b [] hb]
    have h2 := ih (fun x hx => h x (by simp [hx]))
    unfold split_lines at h2
    rw [h2]
    simp

lemma split_lines_go_proper :
    ∀ (s cur : List Char), s.getLast? = some '\n' → '\n' ∉ cur →
      ∀ ch ∈ split_lines_go cur s, is_nl_line ch := by
  intro s
  induction s with
  | nil =>
    intro cur h
    simp at h
  | cons c rest ih =>
    intro cur hlast hcur ch hch
    by_cases hc : c = '\n'
    · subst hc
      simp only [split_lines_go, if_pos rfl] at hch
      rcases List.mem_cons.mp hch with rfl | h2
      · exact ⟨cur.reverse, rfl, by simpa using hcur⟩
      · cases hrest : rest with
        | nil =>
          rw [hrest] at h2
          simp [split_lines_go] at h2
        | cons r rs =>
          have hrl : rest.getLast? = some '\n' := by
            rw [hrest]
            rw [hrest, List.getLast?_cons_cons] at hlast
            exact hlast
          exact ih [] hrl (by simp) ch h2
    · simp only [split_lines_go, if_neg hc] at hch
      cases hrest : rest with
      | nil =>
        rw [hrest] at hlast
        simp at hlast
        exact absurd hlast hc
      | cons r rs =>
        have hrl : rest.getLast? = some '\n' := by
          rw [hrest]
          rw [hrest, List.getLast?_cons_cons] at hlast
          exact hlast
        have hcur2 : '\n' ∉ c :: cur := by
          intro hmem
          rcases List.mem_cons.mp hmem with h | h
          · exact hc h.symm
          · exact hcur h
        exact ih (c :: cur) hrl hcur2 ch hch

lemma split_lines_proper (s : List Char) (h : s.getLast? = some '\n') :
    ∀ ch ∈ split_lines s, is_nl_line ch :=
  split_lines_go_proper s [] h (by simp)

/-- C5 counterexample: the rewrite is not idempotent byte for byte.  For a
    prior file whose single line has no trailing newline, the first run
    appends the start sentinel directly onto that line (fwrite of the kept
    bytes, then fprintf, with no separator); the second run then finds the
    start sentinel inside the merged line and deletes it, user text
    included, so the second output differs from the first. -/
theorem c5_counterexample :
    grub_rewrite (mk_resume_args c5w_uuid 616448)
      (grub_rewrite (mk_resume_args c5w_uuid 616448) c5cex_content) ≠
    grub_rewrite (mk_resume_args c5w_uuid 616448) c5cex_content := by decide

/-- C5 (amended): for every prior file content that is empty or ends with a
    newline, rewriting twice with the same UUID and offset yields content
    byte-for-byte identical to rewriting once: the managed block is
    replaced, never duplicated.  The last two hypotheses exclude degenerate
    UUIDs whose text contains a newline or the end sentinel. -/
theorem c5_amended (dev_uuid : String) (offset : Nat) (content : List Char)
    (hnl : content = [] ∨ content.getLast? = some '\n')
    (h1 : ('\n' : Char) ∉ (grub_cmdline_line (mk_resume_args dev_uuid offset)).data)
    (h2 : hasSubstrL ((grub_cmdline_line (mk_resume_args dev_uuid offset)).data ++ ['\n'])
        az_end_line.data = false) :
    grub_rewrite (mk_resume_args dev_uuid offset)
      (grub_rewrite (mk_resume_args dev_uuid offset) content) =
    grub_rewrite (mk_resume_args dev_uuid offset) content := by
  have hkept_nostart : ∀ l ∈ strip_managed_block false (split_lines content),
      hasSubstrL l az_start_line.data = false :=
    fun l hl => strip_mem_no_start (split_lines content) false l hl
  have hkept_proper : ∀ ch ∈ strip_managed_block false (split_lines content),
      is_nl_line ch := by
    intro ch hch
    rcases hnl with rfl | hnl
    · simp [split_lines, split_lines_go, strip_managed_block] at hch
    · exact split_lines_proper content hnl ch (strip_sublist (split_lines content) false ch hch)
  have hsplit : split_lines (grub_rewrite (mk_resume_args dev_uuid offset) content) =
      strip_managed_block false (split_lines content) ++
        grub_block (mk_resume_args dev_uuid offset) := by
    unfold grub_rewrite
    apply split_lines_join
    intro ch hch
    rcases List.mem_append.mp hch with h | h
    · exact hkept_proper ch h
    · simp only [grub_block, List.mem_cons, List.not_mem_nil, or_false] at h
      rcases h with rfl | rfl | rfl
      · exact ⟨az_start_line.data, rfl, by decide⟩
      · exact ⟨(grub_cmdline_line (mk_resume_args dev_uuid offset)).data, rfl, h1⟩
      · exact ⟨az_end_line.data, rfl, by decide⟩
  have hblock : strip_managed_block false (grub_block (mk_resume_args dev_uuid offset)) =
      [] := by
    simp only [grub_block, strip_managed_block]
    rw [if_pos hasSubstrL_start_nl, if_neg (by simp [h2]), if_pos hasSubstrL_end_nl]
  have key : grub_rewrite (mk_resume_args dev_uuid offset)
      (grub_rewrite (mk_resume_args dev_uuid offset) content) =
      (strip_managed_block false
          (split_lines (grub_rewrite (mk_resume_args dev_uuid offset) content)) ++
        grub_block (mk_resume_args dev_uuid offset)).flatten := rfl
  rw [key, hsplit,
    strip_append_no_start (grub_block (mk_resume_args dev_uuid offset))
      (strip_managed_block false (split_lines content)) hkept_nostart,
    hblock, List.append_nil]
  rfl

/-- C5 witness: idempotence at a concrete UUID, offset and newline-ended
    prior content. -/
theorem c5_amended_witness :
    grub_rewrite (mk_resume_args c5w_uuid 616448)
      (grub_rewrite (mk_resume_args c5w_uuid 616448) c5w_nl_content) =
    grub_rewrite (mk_resume_args c5w_uuid 616448) c5w_nl_content :=
  c5_amended c5w_uuid 616448 c5w_nl_content (Or.inr (by decide)) (by decide) (by decide)

-- update_swap_offset lemmas.

lemma is_kernel_cmdline_correct_iff (fields : List String) (dev_uuid : String)
    (resume_offset : Nat) :
    is_kernel_cmdline_correct (some fields) dev_uuid resume_offset = true ↔
      params_match fields dev_uuid resume_offset := by
  unfold is_kernel_cmdline_correct params_match
  cases h1 : last_field_value fields resume_key with
  | none => simp [h1]
  | some rf =>
    cases h2 : last_field_value fields resume_offset_key with
    | none => simp [h1, h2]
    | some rof =>
      cases h3 : last_field_value fields no_console_suspend_key with
      | none => simp [h1, h2, h3]
      | some nf => simp [h1, h2, h3, and_assoc]

lemma grub_trace_spec (e : UpdEnv)
    (htool : e.has_grubby = true ∨ e.has_update_grub2 = true ∨ e.has_grub2_mkconfig = true) :
    (update_kernel_cmdline_params_for_grub e).2 ≠ [] ∧
      UAct.set_area ∉ (update_kernel_cmdline_params_for_grub e).2 := by
  unfold update_kernel_cmdline_params_for_grub
  rcases htool with ht | ht | ht <;>
    by_cases h4 : e.has_update_initramfs <;>
      by_cases h1 : e.has_grubby <;>
        by_cases h2 : e.has_update_grub2 <;>
          by_cases h5 : e.grub_cfg_found <;>
            by_cases h3 : e.has_grub2_mkconfig <;>
              simp_all

/-- C4: with the reconciliation step reachable (snapshot device opened,
    area registration succeeded, UUID resolved) and at least one bootloader
    tool available, boot configuration is patched (a write or tool
    invocation beyond the swap-area registration appears in the trace) if
    and only if the three kernel parameters do not all match the current
    command line exactly; when they all match, the step performs the
    registration alone and rewrites nothing. -/
theorem c4_patch_iff (e : UpdEnv) (u : String) (area : ResumeSwapArea)
    (hs : e.snapshot_open_ok = true) (hio : e.ioctl_ok = true) (hu : e.uuid = some u)
    (harea : get_swap_area e.is_regular e.dev e.bm e.blksize e.page_size = some area)
    (htool : e.has_grubby = true ∨ e.has_update_grub2 = true ∨ e.has_grub2_mkconfig = true) :
    (is_kernel_cmdline_correct e.cmdline_fields u area.offset = true →
      update_swap_offset e = Except.ok (true, [UAct.set_area])) ∧
    (∀ p, update_swap_offset e = Except.ok p →
      ((∃ a ∈ p.2, a ≠ UAct.set_area) ↔
        is_kernel_cmdline_correct e.cmdline_fields u area.offset = false)) := by
  have hsnap : ¬ (e.snapshot_open_ok = false) := by simp [hs]
  have hioc : ¬ (e.ioctl_ok = false) := by simp [hio]
  have htool2 : (e.has_grubby || e.has_update_grub2 || e.has_grub2_mkconfig) = true := by
    rcases htool with h | h | h <;> simp [h]
  constructor
  · intro hcorrect
    unfold update_swap_offset
    rw [if_neg hsnap, harea]
    dsimp only
    rw [if_neg hioc, hu]
    dsimp only
    rw [if_pos hcorrect]
  · intro p hp
    unfold update_swap_offset at hp
    rw [if_neg hsnap, harea] at hp
    dsimp only at hp
    rw [if_neg hioc, hu] at hp
    dsimp only at hp
    by_cases hcorrect : is_kernel_cmdline_correct e.cmdline_fields u area.offset = true
    · rw [if_pos hcorrect] at hp
      rcases Except.ok.injEq _ _ ▸ hp with rfl
      · simp [hcorrect]
    · rw [if_neg hcorrect, if_pos (by simpa using htool2)] at hp
      rcases Except.ok.injEq _ _ ▸ hp with rfl
      have hg := grub_trace_spec e htool
      simp only [Bool.not_eq_true] at hcorrect
      simp [hcorrect]
      rcases hne : (update_kernel_cmdline_params_for_grub e).2 with _ | ⟨y, ys⟩
      · exact absurd hne hg.1
      · refine ⟨y, by simp, ?_⟩
        intro hy
        rw [hy] at hne
        exact hg.2 (by rw [hne]; simp)

/-- C7: an unresolvable offset (the all-bits-set sentinel) or a
    non-regular swap file makes get_swap_area fatal, and update_swap_offset
    then aborts with an empty action trace: the offset is never registered
    with the kernel hibernation interface and no boot configuration is
    touched. -/
theorem c7_sentinel_fatal (e : UpdEnv)
    (h : get_swap_file_offset e.bm e.blksize e.page_size = U32_MOD - 1 ∨
      e.is_regular = false) :
    get_swap_area e.is_regular e.dev e.bm e.blksize e.page_size = none ∧
    (e.snapshot_open_ok = true → update_swap_offset e = Except.error []) := by
  have harea : get_swap_area e.is_regular e.dev e.bm e.blksize e.page_size = none := by
    unfold get_swap_area
    rcases h with h | h
    · by_cases hr : e.is_regular = false
      · rw [if_pos hr]
      · rw [if_neg hr, if_pos h]
    · rw [if_pos h]
  refine ⟨harea, fun hs => ?_⟩
  unfold update_swap_offset
  rw [if_neg (by simp [hs]), harea]

/-- C4 witness: with all three parameters already on the command line, the
    reconciliation registers the area and patches nothing. -/
theorem c4_patch_iff_witness :
    update_swap_offset c4w_env = Except.ok (true, [UAct.set_area]) :=
  (c4_patch_iff c4w_env c4w_uuid { offset := 100, dev := 3 } rfl rfl rfl
    (by decide) (Or.inl rfl)).1 (by decide)

/-- C7 witness: a mapping broken after one block yields the sentinel and a
    fatal update_swap_offset with an empty trace. -/
theorem c7_sentinel_fatal_witness :
    get_swap_area c7w_env.is_regular c7w_env.dev c7w_env.bm c7w_env.blksize
      c7w_env.page_size = none ∧
    update_swap_offset c7w_env = Except.error [] := by
  have h := c7_sentinel_fatal c7w_env (Or.inl (by decide))
  exact ⟨h.1, h.2 rfl⟩

-- Lemmas about the orchestration tail.

lemma proceed_with_final (e : MainEnv) (swap : SwapFileRec) (c : Bool) (tr : List MAct) :
    (proceed_with e swap c tr).final_swap = some swap := by
  unfold proceed_with
  split
  · rfl
  · split
    · rfl
    · split <;> rfl

lemma proceed_with_trace_shape (e : MainEnv) (swap : SwapFileRec) (c : Bool)
    (tr : List MAct) :
    (proceed_with e swap c tr).trace = tr ∨
      ∃ r, (proceed_with e swap c tr).trace = tr ++ MAct.swapon_act swap.path :: r := by
  unfold proceed_with
  split
  · exact Or.inl rfl
  · split
    · exact Or.inr ⟨[], by simp⟩
    · split
      · exact Or.inr ⟨[], by simp⟩
      · exact Or.inr ⟨[MAct.finished_act], by simp⟩

lemma proceed_with_exit_iff (e : MainEnv) (swap : SwapFileRec) (c : Bool)
    (tr : List MAct) (hf : MAct.finished_act ∉ tr) :
    ((proceed_with e swap c tr).exit_code = 0 ↔
      MAct.finished_act ∈ (proceed_with e swap c tr).trace) := by
  unfold proceed_with
  split
  · simp [hf]
  · split
    · simp [hf]
    · split
      · simp [hf]
      · simp

lemma proceed_with_exit0 (e : MainEnv) (swap : SwapFileRec) (c : Bool)
    (tr : List MAct) :
    (proceed_with e swap c tr).exit_code = 0 →
      ∃ tr2, update_swap_offset e.upd = Except.ok (true, tr2) := by
  unfold proceed_with
  split
  · intro h
    simp at h
  · cases hupd : update_swap_offset e.upd with
    | error tr3 =>
      dsimp only
      intro h
      simp at h
    | ok p =>
      obtain ⟨b, tr2⟩ := p
      cases b with
      | false =>
        dsimp only
        intro h
        simp at h
      | true =>
        dsimp only
        intro _
        exact ⟨tr2, rfl⟩

lemma after_create_final (e : MainEnv) (needed : Nat) (tr : List MAct) :
    (after_create e needed tr).final_swap = none ∨
      (after_create e needed tr).final_swap =
        some { path := swap_file_name_str, capacity := needed } := by
  unfold after_create
  split
  · exact Or.inl rfl
  · exact Or.inr (proceed_with_final _ _ _ _)

lemma after_create_trace_shape (e : MainEnv) (needed : Nat) (tr : List MAct) :
    (after_create e needed tr).trace = tr ∨
      ∃ r, (after_create e needed tr).trace = tr ++ MAct.create_act needed :: r := by
  unfold after_create
  split
  · exact Or.inl rfl
  · rcases proceed_with_trace_shape e
      { path := swap_file_name_str, capacity := needed } true
      (tr ++ [MAct.create_act needed]) with h | ⟨r, h⟩
    · exact Or.inr ⟨[], by simp [h]⟩
    · exact Or.inr ⟨MAct.swapon_act swap_file_name_str :: r, by simpa using h⟩

lemma after_create_exit_iff (e : MainEnv) (needed : Nat) (tr : List MAct)
    (hf : MAct.finished_act ∉ tr) :
    ((after_create e needed tr).exit_code = 0 ↔
      MAct.finished_act ∈ (after_create e needed tr).trace) := by
  unfold after_create
  split
  · simp [hf]
  · exact proceed_with_exit_iff e _ true _ (by simp [hf])

lemma after_create_exit0 (e : MainEnv) (needed : Nat) (tr : List MAct) :
    (after_create e needed tr).exit_code = 0 →
      ∃ tr2, update_swap_offset e.upd = Except.ok (true, tr2) := by
  unfold after_create
  split
  · intro h
    simp at h
  · exact proceed_with_exit0 e _ true _

/-- C3: any swap file handed to activation has capacity at least the needed
    size, and a discovered file that is too small is routed through the
    disable-unlink-recreate transition: the trace starts with disabling it,
    and if activation happens at all, it is preceded by disabling and
    unlinking the old file and creating a fresh file of the needed size. -/
theorem c3_capacity (e : MainEnv) (n : Nat)
    (hn : swap_needed_size e.total_ram = some n) :
    (∀ s, (main_model e).final_swap = some s → n ≤ s.capacity) ∧
    (∀ s0, e.hib_enabled = true → e.total_ram ≠ 0 →
      find_swap_file_intent e.entries e.hibstat n = some s0 → s0.capacity < n →
      ((∃ tr, (main_model e).trace = MAct.swapoff_act s0.path :: tr) ∧
       (∀ p, MAct.swapon_act p ∈ (main_model e).trace →
         ∃ tr2, (main_model e).trace = MAct.swapoff_act s0.path ::
           MAct.unlink_act s0.path :: MAct.create_act n :: tr2))) := by
  constructor
  · intro s hs
    unfold main_model at hs
    by_cases hh : e.hib_enabled = false
    · rw [if_pos hh] at hs
      simp at hs
    · rw [if_neg hh] at hs
      by_cases hr : e.total_ram = 0
      · rw [if_pos hr] at hs
        simp at hs
      · rw [if_neg hr, hn] at hs
        dsimp only at hs
        cases hfind : find_swap_file_intent e.entries e.hibstat n with
        | some swap =>
          rw [hfind] at hs
          dsimp only at hs
          by_cases hcap : swap.capacity < n
          · rw [if_pos hcap] at hs
            by_cases hso : e.swapoff_ok = false
            · rw [if_pos hso] at hs
              simp at hs
            · rw [if_neg hso] at hs
              by_cases hul : e.unlink_ok = false
              · rw [if_pos hul] at hs
                simp at hs
              · rw [if_neg hul] at hs
                rcases after_create_final e n
                  [MAct.swapoff_act swap.path, MAct.unlink_act swap.path] with h | h
                · rw [h] at hs
                  simp at hs
                · rw [h] at hs
                  obtain rfl := Option.some.inj hs
                  simp
          · rw [if_neg hcap] at hs
            rw [proceed_with_final] at hs
            obtain rfl := Option.some.inj hs
            omega
        | none =>
          rw [hfind] at hs
          dsimp only at hs
          rcases after_create_final e n [] with h | h
          · rw [h] at hs
            simp at hs
          · rw [h] at hs
            obtain rfl := Option.some.inj hs
            simp
  · intro s0 hh hr hfind hcap
    unfold main_model
    rw [if_neg (by simp [hh]), if_neg hr, hn]
    dsimp only
    rw [hfind]
    dsimp only
    rw [if_pos hcap]
    by_cases hso : e.swapoff_ok = false
    · rw [if_pos hso]
      refine ⟨⟨[], rfl⟩, ?_⟩
      intro p hp
      simp at hp
    · rw [if_neg hso]
      by_cases hul : e.unlink_ok = false
      · rw [if_pos hul]
        refine ⟨⟨[MAct.unlink_act s0.path], rfl⟩, ?_⟩
        intro p hp
        simp at hp
      · rw [if_neg hul]
        rcases after_create_trace_shape e n
          [MAct.swapoff_act s0.path, MAct.unlink_act s0.path] with h | ⟨r, h⟩
        · rw [h]
          refine ⟨⟨[MAct.unlink_act s0.path], rfl⟩, ?_⟩
          intro p hp
          simp at hp
        · rw [h]
          refine ⟨⟨MAct.unlink_act s0.path :: MAct.create_act n :: r, by simp⟩, ?_⟩
          intro p _
          exact ⟨r, by simp⟩

/-- C3 witness: the undersized 1 GiB file is replaced and the final file
    meets the 6 GiB requirement. -/
theorem c3_capacity_witness :
    6 * GIGA_BYTES ≤ (SwapFileRec.mk swap_file_name_str (6 * GIGA_BYTES)).capacity :=
  (c3_capacity c3w_env (6 * GIGA_BYTES) (by decide)).1
    (SwapFileRec.mk swap_file_name_str (6 * GIGA_BYTES)) (by decide)

/-- C9: the process exits 0 exactly when hibernation is not enabled for the
    VM (with nothing done) or the full run completed; in particular, once
    the machine is past activation, a false return from update_swap_offset
    (boot configuration not patched) makes the run exit non-zero, so exit 0
    with hibernation enabled implies the reconciliation returned true. -/
theorem c9_exit_codes (e : MainEnv) :
    (e.hib_enabled = false →
      main_model e = { exit_code := 0, trace := [], final_swap := none }) ∧
    ((main_model e).exit_code = 0 ↔
      (e.hib_enabled = false ∨ MAct.finished_act ∈ (main_model e).trace)) ∧
    (e.hib_enabled = true → (main_model e).exit_code = 0 →
      ∃ tr2, update_swap_offset e.upd = Except.ok (true, tr2)) := by
  have h1 : e.hib_enabled = false →
      main_model e = { exit_code := 0, trace := [], final_swap := none } := by
    intro hh
    unfold main_model
    rw [if_pos hh]
  refine ⟨h1, ?_, ?_⟩
  · by_cases hh : e.hib_enabled = false
    · rw [h1 hh]
      simp [hh]
    · rw [or_iff_right hh]
      unfold main_model
      rw [if_neg hh]
      by_cases hr : e.total_ram = 0
      · rw [if_pos hr]
        simp
      · rw [if_neg hr]
        cases hneed : swap_needed_size e.total_ram with
        | none =>
          dsimp only
          simp
        | some n =>
          dsimp only
          cases hfind : find_swap_file_intent e.entries e.hibstat n with
          | some swap =>
            dsimp only
            by_cases hcap : swap.capacity < n
            · rw [if_pos hcap]
              by_cases hso : e.swapoff_ok = false
              · rw [if_pos hso]
                simp
              · rw [if_neg hso]
                by_cases hul : e.unlink_ok = false
                · rw [if_pos hul]
                  simp
                · rw [if_neg hul]
                  exact after_create_exit_iff e n _ (by simp)
            · rw [if_neg hcap]
              exact proceed_with_exit_iff e swap false [] (by simp)
          | none =>
            dsimp only
            exact after_create_exit_iff e n [] (by simp)
  · intro hh h0
    unfold main_model at h0
    rw [if_neg (by simp [hh])] at h0
    by_cases hr : e.total_ram = 0
    · rw [if_pos hr] at h0
      simp at h0
    · rw [if_neg hr] at h0
      cases hneed : swap_needed_size e.total_ram with
      | none =>
        rw [hneed] at h0
        dsimp only at h0
        simp at h0
      | some n =>
        rw [hneed] at h0
        dsimp only at h0
        cases hfind : find_swap_file_intent e.entries e.hibstat n with
        | some swap =>
          rw [hfind] at h0
          dsimp only at h0
          by_cases hcap : swap.capacity < n
          · rw [if_pos hcap] at h0
            by_cases hso : e.swapoff_ok = false
            · rw [if_pos hso] at h0
              simp at h0
            · rw [if_neg hso] at h0
              by_cases hul : e.unlink_ok = false
              · rw [if_pos hul] at h0
                simp at h0
              · rw [if_neg hul] at h0
                exact after_create_exit0 e n _ h0
          · rw [if_neg hcap] at h0
            exact proceed_with_exit0 e swap false [] h0
        | none =>
          rw [hfind] at h0
          dsimp only at h0
          exact after_create_exit0 e n [] h0

/-- C9 witness: hibernation not enabled exits 0 having done nothing. -/
theorem c9_exit_codes_witness :
    main_model c9w_env = { exit_code := 0, trace := [], final_swap := none } :=
  (c9_exit_codes c9w_env).1 rfl
